import Mathlib

/-!
# GoMattGo — shallow embedding and verification

A shallow embedding, in Lean 4, of the Go rules engine of the GoMattGo
repository (files `piece.py` and `game_state.py`), together with theorems
settling the specification claims about it.

Modelling conventions:
* Python `PositionState` / `Color` enums become Lean inductives.
* The board `_board : List[List[PositionState]]` becomes a nested Lean list.
  In-bounds indexing in the source is modelled with `List.getD` (the source
  never indexes out of bounds: neighbour coordinates are guarded).
* Python `set` values of pieces / coordinates are modelled as lists of
  distinct elements in iteration order; `set.add` appends when the element
  is absent, set difference filters, `|=` folds `add`.  Every property
  proved below is insensitive to the iteration order.
* The recursion of `Board.build_group` is modelled with an explicit fuel
  argument bounding recursion depth; the source recursion is bounded by the
  number of pieces on the board, and `get_groups` supplies a fuel larger
  than that bound.
* Exceptions (`IllegalMoveError`) become `Except`: `GameState.update`
  returns `Except MoveError GameState`; an `error` result models a raise
  occurring before the copied-in state is mutated, so the pre-call state is
  literally unchanged.  The two distinct `raise IllegalMoveError` sites in
  `update` (occupied-cell check, ko check) are tagged `occupiedCell` and
  `koViolation`.
-/

namespace GoMattGo

/-- The `PositionState` enum of `game_state.py`. -/
inductive PositionState
  | empty
  | white
  | black
deriving DecidableEq, Repr

/-- The `Color` enum of `piece.py`. -/
inductive Color
  | white
  | black
deriving DecidableEq, Repr

/-- The `Piece` class of `piece.py`: row, column, color. -/
structure Piece where
  row : Nat
  col : Nat
  color : Color
deriving DecidableEq, Repr

/-- Method `Piece.adjacent_coordinates` (`piece.py`): in-bounds 4-neighbours,
appended in the source's order (up, down, left, right), each guarded by the
source's bound checks (`row >= 1`, `row <= 17`, `col >= 1`, `col <= 17`). -/
def Piece.adjacent_coordinates (p : Piece) : List (Nat × Nat) :=
  (if 1 ≤ p.row then [(p.row - 1, p.col)] else []) ++
  (if p.row ≤ 17 then [(p.row + 1, p.col)] else []) ++
  (if 1 ≤ p.col then [(p.row, p.col - 1)] else []) ++
  (if p.col ≤ 17 then [(p.row, p.col + 1)] else [])

/-- The `Group` class of `game_state.py`: member pieces and liberties (Python sets,
modelled as duplicate-free lists). -/
structure Group where
  pieces : List Piece
  liberties : List (Nat × Nat)
deriving DecidableEq, Repr

/-- Property `Group.liberal`: `len(self.liberties) != 0`. -/
def Group.liberal (g : Group) : Bool :=
  g.liberties.length ≠ 0

/-- The `Board` class of `game_state.py`: a 19×19 matrix of `PositionState`. -/
structure Board where
  cells : List (List PositionState)
deriving DecidableEq, Repr

/-- Constructor `Board.__init__`: 19×19 all-`EMPTY` matrix. -/
def Board.init : Board :=
  ⟨List.replicate 19 (List.replicate 19 PositionState.empty)⟩

/-- Reading `self._board[r][c]` (always called in bounds in the source). -/
def Board.cell (b : Board) (r c : Nat) : PositionState :=
  (b.cells.getD r []).getD c PositionState.empty

/-- Method `Board.set_cell`: `self._board[r][c] = cell_state`. -/
def Board.set_cell (b : Board) (r c : Nat) (s : PositionState) : Board :=
  ⟨b.cells.set r ((b.cells.getD r []).set c s)⟩

/-- Method `Board.is_position_occupied`: `not (self._board[r][c] is EMPTY)`. -/
def Board.is_position_occupied (b : Board) (r c : Nat) : Bool :=
  ¬ (b.cell r c = PositionState.empty)

/-- The `pieces` generator: scan rows then columns, yielding a `Piece` for
every `WHITE` or `BLACK` cell, in row-major order. -/
def rowPieces (r : Nat) (row : List PositionState) : List Piece :=
  (row.enum.filterMap fun cp =>
    match cp.2 with
    | PositionState.white => some ⟨r, cp.1, Color.white⟩
    | PositionState.black => some ⟨r, cp.1, Color.black⟩
    | PositionState.empty => none)

/-- Property `Board.pieces` of `game_state.py`. -/
def Board.pieces (b : Board) : List Piece :=
  (b.cells.enum.map fun rrow => rowPieces rrow.1 rrow.2).flatten

/-- Method `Board.find_adjacent_pieces` of `game_state.py`, exactly as written in
the source: the two distance conditions are combined with `and`, and on
success the *probe* piece `p` (not `some_p`) is appended. -/
def Board.find_adjacent_pieces (p : Piece) (pieces : List Piece) : List Piece :=
  pieces.foldl
    (fun all_adj some_p =>
      if (((p.row : Int) - some_p.row).natAbs = 1 ∧ p.col = some_p.col) ∧
         (((p.col : Int) - some_p.col).natAbs = 1 ∧ p.row = some_p.row)
      then all_adj ++ [p] else all_adj)
    []

/-- Python `set.add` on a duplicate-free list: append when absent. -/
def setAdd (s : List Piece) (x : Piece) : List Piece :=
  if x ∈ s then s else s ++ [x]

/-- Python set difference `a - b` on the list model. -/
def setDiff (a b : List Piece) : List Piece :=
  a.filter fun x => x ∉ b

/-- Python `a |= b` on the list model: fold `set.add` over `b`. -/
def setUnion (a b : List Piece) : List Piece :=
  b.foldl setAdd a

/-- Method `Board.build_group` of `game_state.py`.  The source mutates `group` in
place: it computes `all_adj = find_adjacent_pieces(piece, considered - group)`
once on entry, then for each `adj` adds it to `group` and recurses with
`(adj, considered - group, group)`.  Here the evolving `group` is threaded
through a fold and the unbounded recursion carries a fuel argument (the
source recursion depth is bounded by the number of pieces). -/
def Board.build_group : Nat → Piece → List Piece → List Piece → List Piece
  | 0, _, _, group => group
  | fuel + 1, piece, considered, group =>
    (Board.find_adjacent_pieces piece (setDiff considered group)).foldl
      (fun g adj =>
        Board.build_group fuel adj (setDiff considered (setAdd g adj)) (setAdd g adj))
      group

/-- Method `Board.count_liberties` of `game_state.py`: the coordinate set of empty
cells adjacent to members of `group`, built by `set.add` over the members'
`adjacent_coordinates`. -/
def Board.count_liberties (b : Board) (group : List Piece) : List (Nat × Nat) :=
  group.foldl
    (fun liberties piece =>
      piece.adjacent_coordinates.foldl
        (fun libs rc =>
          if b.cell rc.1 rc.2 = PositionState.empty then
            (if rc ∈ libs then libs else libs ++ [rc])
          else libs)
        liberties)
    []

/-- Method `Board.get_groups` of `game_state.py`: iterate the color's pieces; for
each piece not yet added, seed `group = {piece}`, run `build_group(piece,
all_pieces - group, group)`, record the group and union it into
`added_pieces`; finally pair each raw group with its liberties. -/
def Board.get_groups (b : Board) (color : Color) : List Group :=
  let all_pieces := b.pieces.filter fun p => p.color = color
  let st := all_pieces.foldl
    (fun (st : List (List Piece) × List Piece) piece =>
      if piece ∈ st.2 then st
      else
        let group := Board.build_group (all_pieces.length + 1) piece
          (setDiff all_pieces [piece]) [piece]
        (st.1 ++ [group], setUnion st.2 group))
    ([], [])
  st.1.map fun raw => Group.mk raw (b.count_liberties raw)

/-- Method `Board.remove_group`: overwrite every member piece's cell with `EMPTY`. -/
def Board.remove_group (b : Board) (g : Group) : Board :=
  g.pieces.foldl (fun bd p => bd.set_cell p.row p.col PositionState.empty) b

/-- The string `str(x)` of a `PositionState`, as Python prints enum members. -/
def PositionState.str : PositionState → String
  | PositionState.empty => "PositionState.EMPTY"
  | PositionState.white => "PositionState.WHITE"
  | PositionState.black => "PositionState.BLACK"

/-- The string `''.join([str(x) for row in self._board for x in row])` built
by `Board.__hash__`. -/
def Board.hashKey (b : Board) : String :=
  String.join ((b.cells.map fun row => row.map PositionState.str).flatten)

/-- Method `Board.__hash__`: Python's `hash` of the join string.  Python's string
hash is a fixed function of the string value; it is modelled with Lean's
`String.hash` (every theorem below depends only on equal strings having
equal hashes, which holds for any function of the string). -/
def Board.board_hash (b : Board) : Nat :=
  (Board.hashKey b).hash.toNat

/-- The `Action` hierarchy of `game_state.py` (`Pass`, `Move(r, c)`); the
abstract base class becomes a closed inductive, so the source's
`NotImplementedError` branch for unknown subclasses is unrepresentable. -/
inductive Action
  | pass
  | move (r c : Nat)
deriving DecidableEq, Repr

/-- The single `IllegalMoveError` of the source, tagged by its raise site in
`GameState.update`: the occupied-cell check or the ko check. -/
inductive MoveError
  | occupiedCell
  | koViolation
deriving DecidableEq, Repr

/-- The `COLOR_REVERSE` table of `game_state.py`, restricted to the `Color` keys used
by `GameState.update` and `detect_ko` (the table's `PositionState` entries
are never looked up by the rules engine). -/
def COLOR_REVERSE : Color → Color
  | Color.white => Color.black
  | Color.black => Color.white

/-- The `GameState` class of `game_state.py`: board, turn, pass counter and the
history set `_past_boards`.  The Python set deduplicates `Board` objects by
identity (`Board` defines `__hash__` but not `__eq__`), and every snapshot
added is a fresh `copy`, so the set never discards an addition; it is
modelled as the list of snapshots in insertion order. -/
structure GameState where
  board : Board
  turn : Color
  num_of_passes : Nat
  past_boards : List Board
deriving DecidableEq, Repr

/-- Constructor `GameState.__init__`: empty board, Black to move, zero passes, empty
history. -/
def GameState.init : GameState :=
  ⟨Board.init, Color.black, 0, []⟩

/-- Property `GameState.is_ended`: `self._num_of_passes == 2`. -/
def GameState.is_ended (gs : GameState) : Bool :=
  gs.num_of_passes = 2

/-- Method `GameState.fill_new_piece`: write the turn's `PositionState` at the
move's coordinates. -/
def fill_new_piece (b : Board) (r c : Nat) (turn : Color) : Board :=
  b.set_cell r c
    (match turn with
     | Color.black => PositionState.black
     | Color.white => PositionState.white)

/-- Method `GameState._remove_components`: for every group of `color` computed on
the incoming board, remove it when it has no liberties. -/
def removeComponents (b : Board) (color : Color) : Board :=
  (b.get_groups color).foldl
    (fun bd g => if ¬ g.liberal then bd.remove_group g else bd) b

/-- The membership test `hypothetical_board in self._past_boards` at the end
of `GameState.detect_ko`.  `Board` defines `__hash__` but not `__eq__`, so
Python falls back to comparing set elements by object identity; the
hypothetical board is a freshly created copy and is therefore never
identical to any stored snapshot: the test is always `False`, whatever the
boards' contents. -/
def identityMem (_hypothetical : Board) (_past : List Board) : Bool :=
  false

/-- The hypothetical board `detect_ko` builds: copy the current board, place
the stone, remove dead components of the opponent color, then of the
mover's color. -/
def GameState.hypotheticalBoard (gs : GameState) (r c : Nat) : Board :=
  let hyp := fill_new_piece gs.board r c gs.turn
  let hyp := removeComponents hyp (COLOR_REVERSE gs.turn)
  removeComponents hyp gs.turn

/-- Method `GameState.detect_ko`: build the hypothetical board and test membership
in `_past_boards` (by object identity, see `identityMem`). -/
def GameState.detect_ko (gs : GameState) (r c : Nat) : Bool :=
  identityMem (gs.hypotheticalBoard r c) gs.past_boards

/-- Method `GameState.update`.  `Pass` increments the pass counter; `Move` fails on
an occupied cell, then on `detect_ko`, then places the stone and removes
dead components of the opponent color followed by the mover's color; both
successful paths append a snapshot of the board to `_past_boards` and flip
the turn. -/
def GameState.update (gs : GameState) (action : Action) : Except MoveError GameState :=
  let other_color := COLOR_REVERSE gs.turn
  match action with
  | Action.pass =>
    Except.ok
      { board := gs.board
        turn := other_color
        num_of_passes := gs.num_of_passes + 1
        past_boards := gs.past_boards ++ [gs.board] }
  | Action.move r c =>
    if gs.board.is_position_occupied r c then
      Except.error MoveError.occupiedCell
    else if gs.detect_ko r c then
      Except.error MoveError.koViolation
    else
      let b := fill_new_piece gs.board r c gs.turn
      let b := removeComponents b other_color
      let b := removeComponents b gs.turn
      Except.ok
        { board := b
          turn := other_color
          num_of_passes := gs.num_of_passes
          past_boards := gs.past_boards ++ [b] }

/-- Apply a list of actions in order through `GameState.update`, failing as
soon as one fails. -/
def applyAll (gs : GameState) : List Action → Except MoveError GameState
  | [] => Except.ok gs
  | a :: rest =>
    match gs.update a with
    | Except.ok gs2 => applyAll gs2 rest
    | Except.error e => Except.error e

/-- Build a board by placing the listed black stones, then the listed white
stones, on the empty board (used for concrete scenarios). -/
def mkBoard (blacks whites : List (Nat × Nat)) : Board :=
  whites.foldl (fun b rc => b.set_cell rc.1 rc.2 PositionState.white)
    (blacks.foldl (fun b rc => b.set_cell rc.1 rc.2 PositionState.black) Board.init)

instance : DecidableEq (Except MoveError GameState) := fun x y =>
  match x, y with
  | Except.ok a, Except.ok b => decidable_of_iff (a = b) (by simp)
  | Except.error a, Except.error b => decidable_of_iff (a = b) (by simp)
  | Except.ok _, Except.error _ => isFalse (by simp)
  | Except.error _, Except.ok _ => isFalse (by simp)

/-- The 4-adjacency relation as the spec words it: exactly one of row/col
differs by exactly 1 and the other is equal.  Stated from the spec for
comparison with the source's `find_adjacent_pieces`. -/
def specAdjacent (p q : Piece) : Prop :=
  (p.row = q.row ∧ ((p.col : Int) - q.col).natAbs = 1) ∨
  (p.col = q.col ∧ ((p.row : Int) - q.row).natAbs = 1)

instance (p q : Piece) : Decidable (specAdjacent p q) := by
  unfold specAdjacent; infer_instance

/-- The `and`-combined condition of `find_adjacent_pieces` demands both a
row distance of 1 with equal columns and a column distance of 1 with equal
rows, which is impossible. -/
theorem adjacency_condition_false (p q : Piece) :
    ¬ ((((p.row : Int) - q.row).natAbs = 1 ∧ p.col = q.col) ∧
       (((p.col : Int) - q.col).natAbs = 1 ∧ p.row = q.row)) := by
  rintro ⟨⟨_, hc⟩, habs, _⟩
  rw [hc] at habs
  simp at habs

/-- The probe `find_adjacent_pieces` returns the empty list on every input. -/
theorem find_adjacent_pieces_eq_nil (p : Piece) (l : List Piece) :
    Board.find_adjacent_pieces p l = [] := by
  have key : ∀ (l acc : List Piece),
      List.foldl
        (fun all_adj some_p =>
          if (((p.row : Int) - some_p.row).natAbs = 1 ∧ p.col = some_p.col) ∧
             (((p.col : Int) - some_p.col).natAbs = 1 ∧ p.row = some_p.row)
          then all_adj ++ [p] else all_adj)
        acc l = acc := by
    intro l
    induction l with
    | nil => intro acc; rfl
    | cons q t ih =>
      intro acc
      rw [List.foldl_cons, if_neg (adjacency_condition_false p q)]
      exact ih acc
  exact key l []

/-- Function `build_group` never grows the group: its adjacency probe is empty. -/
theorem build_group_eq (fuel : Nat) (p : Piece) (cons g : List Piece) :
    Board.build_group fuel p cons g = g := by
  cases fuel with
  | zero => rfl
  | succ n => simp [Board.build_group, find_adjacent_pieces_eq_nil]

/-- Order-preserving deduplication: the value `added_pieces` accumulates in
`get_groups` when every discovered group is a singleton. -/
def pydedup (l : List Piece) : List Piece :=
  l.foldl setAdd []

theorem mem_foldl_setAdd (l : List Piece) :
    ∀ (acc : List Piece) (x : Piece),
      x ∈ l.foldl setAdd acc ↔ x ∈ acc ∨ x ∈ l := by
  induction l with
  | nil => simp
  | cons q t ih =>
    intro acc x
    rw [List.foldl_cons, ih]
    by_cases h : q ∈ acc
    · simp only [setAdd, if_pos h, List.mem_cons]
      constructor
      · rintro (hx | hx)
        · exact Or.inl hx
        · exact Or.inr (Or.inr hx)
      · rintro (hx | hx | hx)
        · exact Or.inl hx
        · exact Or.inl (hx ▸ h)
        · exact Or.inr hx
    · simp only [setAdd, if_neg h, List.mem_append, List.mem_singleton, List.mem_cons]
      tauto

theorem mem_pydedup (l : List Piece) (x : Piece) : x ∈ pydedup l ↔ x ∈ l := by
  unfold pydedup
  rw [mem_foldl_setAdd]
  simp

theorem nodup_foldl_setAdd (l : List Piece) :
    ∀ acc : List Piece, acc.Nodup → (l.foldl setAdd acc).Nodup := by
  induction l with
  | nil => intro acc h; exact h
  | cons q t ih =>
    intro acc h
    rw [List.foldl_cons]
    by_cases hq : q ∈ acc
    · rw [setAdd, if_pos hq]; exact ih acc h
    · rw [setAdd, if_neg hq]
      refine ih _ ?_
      rw [List.nodup_append]
      exact ⟨h, List.nodup_singleton q, by simpa using hq⟩

theorem nodup_pydedup (l : List Piece) : (pydedup l).Nodup :=
  nodup_foldl_setAdd l [] List.nodup_nil

/-- The accumulator of the `get_groups` fold: since every discovered group
is the singleton of its seed, the raw-group list is the pointwise singleton
image of the `added_pieces` set. -/
theorem groups_state_eq (fuel : Nat) (all : List Piece) (l : List Piece) :
    ∀ added : List Piece,
      List.foldl
        (fun (st : List (List Piece) × List Piece) piece =>
          if piece ∈ st.2 then st
          else
            (st.1 ++ [Board.build_group fuel piece (setDiff all [piece]) [piece]],
             setUnion st.2 (Board.build_group fuel piece (setDiff all [piece]) [piece])))
        (added.map fun p => [p], added) l
      = ((l.foldl setAdd added).map fun p => [p], l.foldl setAdd added) := by
  induction l with
  | nil => intro added; rfl
  | cons q t ih =>
    intro added
    rw [List.foldl_cons, List.foldl_cons]
    by_cases hq : q ∈ added
    · rw [if_pos hq, setAdd, if_pos hq]
      exact ih added
    · rw [if_neg hq, build_group_eq]
      have hset : setUnion added [q] = added ++ [q] := by
        simp [setUnion, setAdd, hq]
      have hmap : (added.map fun p => [p]) ++ [[q]] = (added ++ [q]).map fun p => [p] := by
        simp
      rw [hset, hmap, setAdd, if_neg hq]
      exact ih (added ++ [q])

/-- Function `get_groups` computes the singleton group of every stone of the color:
the broken adjacency probe means no two stones are ever merged. -/
theorem get_groups_eq (b : Board) (c : Color) :
    b.get_groups c =
      (pydedup (b.pieces.filter fun p => p.color = c)).map
        (fun p => Group.mk [p] (b.count_liberties [p])) := by
  unfold Board.get_groups pydedup
  have h := groups_state_eq
    ((b.pieces.filter fun p => p.color = c).length + 1)
    (b.pieces.filter fun p => p.color = c)
    (b.pieces.filter fun p => p.color = c) []
  simp only [List.map_nil] at h
  simp only [h, List.map_map]
  rfl

/-- C3: the adjacency test used when building groups should hold exactly
for 4-adjacent pieces, but the source's `find_adjacent_pieces` combines the
row-difference and column-difference cases with `and` — an unsatisfiable
condition — so it returns the empty list on every input, in particular on
the spec-adjacent pair (0,0)/(0,1). -/
theorem C3_find_adjacent_pieces_always_empty :
    specAdjacent ⟨0, 0, Color.black⟩ ⟨0, 1, Color.black⟩ ∧
    (∀ (p : Piece) (l : List Piece), Board.find_adjacent_pieces p l = []) :=
  ⟨by decide, find_adjacent_pieces_eq_nil⟩

/-- C5: for every board and color, the groups returned by `get_groups` form
a partition of that color's stones: every same-color stone on the board lies
in exactly one returned group, and a piece lies in some returned group
exactly when it is a stone of that color on the board. -/
theorem C5_get_groups_partition (b : Board) (c : Color) (p : Piece)
    (hmem : p ∈ b.pieces) (hcol : p.color = c) :
    ((b.get_groups c).countP fun g => decide (p ∈ g.pieces)) = 1 ∧
    (∀ q : Piece, (∃ g ∈ b.get_groups c, q ∈ g.pieces) ↔
      (q ∈ b.pieces ∧ q.color = c)) := by
  have hfil : p ∈ b.pieces.filter fun p => p.color = c := by
    rw [List.mem_filter]
    exact ⟨hmem, by simp [hcol]⟩
  constructor
  · rw [get_groups_eq, List.countP_map]
    have hpred : ((fun g : Group => decide (p ∈ g.pieces)) ∘
        fun q => Group.mk [q] (b.count_liberties [q])) = fun q => q == p := by
      funext q
      simp only [Function.comp_apply, List.mem_singleton]
      by_cases h : p = q
      · subst h; simp
      · simp [h, Ne.symm h]
    rw [hpred]
    have : ((pydedup (b.pieces.filter fun p => p.color = c)).countP fun q => q == p)
        = (pydedup (b.pieces.filter fun p => p.color = c)).count p := rfl
    rw [this]
    exact List.count_eq_one_of_mem (nodup_pydedup _) ((mem_pydedup _ _).2 hfil)
  · intro q
    rw [get_groups_eq]
    constructor
    · rintro ⟨g, hg, hq⟩
      rw [List.mem_map] at hg
      obtain ⟨x, hx, rfl⟩ := hg
      rw [List.mem_singleton] at hq
      subst hq
      have := (mem_pydedup _ _).1 hx
      rw [List.mem_filter] at this
      exact ⟨this.1, by simpa using this.2⟩
    · rintro ⟨hqb, hqc⟩
      refine ⟨Group.mk [q] (b.count_liberties [q]), ?_, List.mem_singleton_self q⟩
      rw [List.mem_map]
      refine ⟨q, (mem_pydedup _ _).2 ?_, rfl⟩
      rw [List.mem_filter]
      exact ⟨hqb, by simp [hqc]⟩

/-- Witness for C5 on a concrete board with two black stones. -/
theorem C5_witness :
    (⟨3, 3, Color.black⟩ : Piece) ∈ (mkBoard [(3, 3), (5, 5)] []).pieces ∧
    ((((mkBoard [(3, 3), (5, 5)] []).get_groups Color.black).countP
        fun g => decide ((⟨3, 3, Color.black⟩ : Piece) ∈ g.pieces)) = 1 ∧
      ∀ q : Piece,
        (∃ g ∈ (mkBoard [(3, 3), (5, 5)] []).get_groups Color.black, q ∈ g.pieces) ↔
        (q ∈ (mkBoard [(3, 3), (5, 5)] []).pieces ∧ q.color = Color.black)) :=
  ⟨by decide, C5_get_groups_partition (mkBoard [(3, 3), (5, 5)] []) Color.black
    ⟨3, 3, Color.black⟩ (by decide) rfl⟩

/-- The liberty-collecting fold: over empty, fresh, duplicate-free
coordinates it appends them all. -/
theorem count_lib_fold (b : Board) :
    ∀ (L acc : List (Nat × Nat)),
      (∀ rc ∈ L, b.cell rc.1 rc.2 = PositionState.empty) →
      L.Nodup → (∀ rc ∈ L, rc ∉ acc) →
      L.foldl
        (fun libs rc =>
          if b.cell rc.1 rc.2 = PositionState.empty then
            (if rc ∈ libs then libs else libs ++ [rc])
          else libs)
        acc = acc ++ L := by
  intro L
  induction L with
  | nil => intro acc _ _ _; simp
  | cons rc t ih =>
    intro acc hemp hnd hdis
    rw [List.foldl_cons, if_pos (hemp rc (List.mem_cons_self rc t)),
      if_neg (hdis rc (List.mem_cons_self rc t))]
    rw [List.nodup_cons] at hnd
    rw [ih (acc ++ [rc]) (fun x hx => hemp x (List.mem_cons_of_mem rc hx)) hnd.2]
    · simp
    · intro x hx
      rw [List.mem_append, List.mem_singleton]
      rintro (h | rfl)
      · exact hdis x (List.mem_cons_of_mem rc hx) h
      · exact hnd.1 hx

/-- On a singleton group whose seed has only empty neighbours,
`count_liberties` returns exactly the in-bounds neighbour list. -/
theorem count_liberties_singleton (b : Board) (p : Piece)
    (hemp : ∀ rc ∈ p.adjacent_coordinates, b.cell rc.1 rc.2 = PositionState.empty)
    (hnd : p.adjacent_coordinates.Nodup) :
    b.count_liberties [p] = p.adjacent_coordinates := by
  unfold Board.count_liberties
  rw [List.foldl_cons, List.foldl_nil]
  simpa using count_lib_fold b p.adjacent_coordinates [] hemp hnd (by simp)

/-- The in-bounds neighbour list never repeats a coordinate. -/
theorem adjacent_coordinates_nodup (p : Piece) : p.adjacent_coordinates.Nodup := by
  unfold Piece.adjacent_coordinates
  split_ifs <;> simp [Prod.ext_iff] <;> omega

/-- C7: a stone all of whose in-bounds neighbours are empty heads a group
with exactly 4 liberties at a non-edge coordinate (row and col in 1..17),
exactly 2 at a corner, and exactly 3 on a non-corner edge. -/
theorem C7_isolated_stone_liberty_count (b : Board) (col : Color) (r c : Nat)
    (hr : r ≤ 18) (hc : c ≤ 18)
    (hemp : ∀ rc ∈ (Piece.mk r c col).adjacent_coordinates,
      b.cell rc.1 rc.2 = PositionState.empty) :
    ∀ g ∈ b.get_groups col, (Piece.mk r c col) ∈ g.pieces →
      g.liberties.length =
        (if 1 ≤ r ∧ r ≤ 17 ∧ 1 ≤ c ∧ c ≤ 17 then 4
         else if (r = 0 ∨ r = 18) ∧ (c = 0 ∨ c = 18) then 2
         else 3) := by
  intro g hg hpg
  rw [get_groups_eq, List.mem_map] at hg
  obtain ⟨q, _, rfl⟩ := hg
  simp only [List.mem_singleton] at hpg
  subst hpg
  show (b.count_liberties [Piece.mk r c col]).length = _
  rw [count_liberties_singleton b _ hemp (adjacent_coordinates_nodup _)]
  unfold Piece.adjacent_coordinates
  split_ifs <;> simp_all <;> omega

/-- Witness for C7: the lone black stone at (3,3) has exactly 4 liberties. -/
theorem C7_witness :
    ((∀ rc ∈ (Piece.mk 3 3 Color.black).adjacent_coordinates,
        (mkBoard [(3, 3)] []).cell rc.1 rc.2 = PositionState.empty) ∧
      Group.mk [⟨3, 3, Color.black⟩] [(2, 3), (4, 3), (3, 2), (3, 4)]
        ∈ (mkBoard [(3, 3)] []).get_groups Color.black) ∧
    (Group.mk [⟨3, 3, Color.black⟩] [(2, 3), (4, 3), (3, 2), (3, 4)]).liberties.length = 4 :=
  ⟨⟨by decide, by decide⟩,
    (C7_isolated_stone_liberty_count (mkBoard [(3, 3)] []) Color.black 3 3
      (by decide) (by decide) (by decide)
      (Group.mk [⟨3, 3, Color.black⟩] [(2, 3), (4, 3), (3, 2), (3, 4)])
      (by decide) (by decide)).trans (by decide)⟩

/-- A board is well-formed when it is a 19×19 matrix; `Board.__init__`
establishes this and every operation preserves it. -/
def Board.WF (b : Board) : Prop :=
  b.cells.length = 19 ∧ ∀ row ∈ b.cells, row.length = 19

instance (b : Board) : Decidable b.WF := by
  unfold Board.WF; infer_instance

/-- Cell-wise equal well-formed boards are structurally equal. -/
theorem boards_ext (g1 g2 : Board) (h1 : g1.WF) (h2 : g2.WF)
    (heq : ∀ r < 19, ∀ c < 19, g1.cell r c = g2.cell r c) : g1 = g2 := by
  obtain ⟨len1, rows1⟩ := h1
  obtain ⟨len2, rows2⟩ := h2
  have hcells : g1.cells = g2.cells := by
    apply List.ext_getElem (by rw [len1, len2])
    intro r hr1 hr2
    have hrow1 : g1.cells[r].length = 19 := rows1 _ (List.getElem_mem hr1)
    have hrow2 : g2.cells[r].length = 19 := rows2 _ (List.getElem_mem hr2)
    apply List.ext_getElem (by rw [hrow1, hrow2])
    intro c hc1 hc2
    have hr19 : r < 19 := len1 ▸ hr1
    have hc19 : c < 19 := hrow1 ▸ hc1
    have h := heq r hr19 c hc19
    unfold Board.cell at h
    rw [List.getD_eq_getElem _ _ hr1, List.getD_eq_getElem _ _ hr2,
      List.getD_eq_getElem _ _ hc1, List.getD_eq_getElem _ _ hc2] at h
    exact h
  cases g1
  cases g2
  simpa using hcells

/-- C8: cell-wise equal (well-formed 19×19) boards have equal hashes: the
hash is computed from the join of the cells' string forms, which cell-wise
equality determines. -/
theorem C8_hash_consistent_with_equality (g1 g2 : Board)
    (h1 : g1.WF) (h2 : g2.WF)
    (heq : ∀ r < 19, ∀ c < 19, g1.cell r c = g2.cell r c) :
    g1.board_hash = g2.board_hash := by
  rw [boards_ext g1 g2 h1 h2 heq]

/-- Witness for C8: two boards built by placing the same stones in
different orders hash equal. -/
theorem C8_witness :
    (mkBoard [(3, 3)] [(5, 5)]).WF ∧
    ((mkBoard [(3, 3)] [(5, 5)]).board_hash
      = ((Board.init.set_cell 5 5 PositionState.white).set_cell 3 3
          PositionState.black).board_hash) :=
  ⟨by decide,
    C8_hash_consistent_with_equality _ _ (by decide) (by decide) (by decide)⟩

/-- C6: a move onto an occupied cell is rejected with the occupied-cell
error, for every game state (in particular every reachable one).  In the
source the raise happens before any mutation; the embedding reflects this:
an `error` result produces no successor state, so board, turn, pass counter
and history are exactly the pre-call ones. -/
theorem C6_occupied_cell_rejected (gs : GameState) (r c : Nat)
    (h : gs.board.is_position_occupied r c = true) :
    gs.update (Action.move r c) = Except.error MoveError.occupiedCell := by
  unfold GameState.update
  simp [h]

/-- Witness for C6: moving onto the stone at (3,3). -/
theorem C6_witness :
    (⟨mkBoard [(3, 3)] [], Color.white, 0, [mkBoard [(3, 3)] []]⟩
        : GameState).board.is_position_occupied 3 3 = true ∧
    (⟨mkBoard [(3, 3)] [], Color.white, 0, [mkBoard [(3, 3)] []]⟩
        : GameState).update (Action.move 3 3) = Except.error MoveError.occupiedCell :=
  ⟨by decide, C6_occupied_cell_rejected _ 3 3 (by decide)⟩

/-- Discriminator for `Pass` actions. -/
def isPass : Action → Bool
  | Action.pass => true
  | Action.move _ _ => false

/-- A successful `update` changes the pass counter by exactly the action's
pass count: `Pass` adds one, a successful `Move` leaves it unchanged. -/
theorem update_ok_passes (gs gs' : GameState) (a : Action)
    (h : gs.update a = Except.ok gs') :
    gs'.num_of_passes = gs.num_of_passes + (if isPass a then 1 else 0) := by
  cases a with
  | pass =>
    simp only [GameState.update] at h
    injection h with h
    subst h
    simp [isPass]
  | move r c =>
    simp only [GameState.update] at h
    split at h
    · exact absurd h (by simp)
    · split at h
      · exact absurd h (by simp)
      · injection h with h
        subst h
        simp [isPass]

/-- Over a successful action sequence the pass counter grows by exactly the
number of `Pass` actions in the sequence. -/
theorem applyAll_ok_passes (acts : List Action) :
    ∀ (gs gs' : GameState), applyAll gs acts = Except.ok gs' →
      gs'.num_of_passes = gs.num_of_passes + acts.countP isPass := by
  induction acts with
  | nil =>
    intro gs gs' h
    simp only [applyAll] at h
    injection h with h
    subst h
    simp
  | cons a t ih =>
    intro gs gs' h
    simp only [applyAll] at h
    cases hup : gs.update a with
    | error e => rw [hup] at h; exact absurd h (by simp)
    | ok gs2 =>
      rw [hup] at h
      have h2 := ih gs2 gs' h
      have h1 := update_ok_passes gs gs2 a hup
      rw [List.countP_cons]
      cases hpa : isPass a <;> simp [hpa] at h1 ⊢ <;> omega

/-- C9: a successful Move never changes the pass counter (it is only ever
incremented, by Pass, and never reset), so any successful action sequence
from the initial state containing exactly two Pass actions — however many
Moves separate them — ends the game. -/
theorem C9_pass_counter_frame :
    (∀ (gs gs' : GameState) (r c : Nat),
        gs.update (Action.move r c) = Except.ok gs' →
        gs'.num_of_passes = gs.num_of_passes) ∧
    (∀ (acts : List Action) (gs : GameState),
        applyAll GameState.init acts = Except.ok gs →
        acts.countP isPass = 2 → gs.is_ended = true) := by
  constructor
  · intro gs gs' r c h
    simpa [isPass] using update_ok_passes gs gs' (Action.move r c) h
  · intro acts gs h hc
    have hp := applyAll_ok_passes acts GameState.init gs h
    rw [hc] at hp
    simp only [GameState.is_ended, decide_eq_true_eq]
    simpa [GameState.init] using hp

/-- Witness for C9: pass, move, pass ends the game. -/
theorem C9_witness :
    applyAll GameState.init [Action.pass, Action.move 3 3, Action.pass]
      = Except.ok ⟨mkBoard [] [(3, 3)], Color.white, 2,
          [Board.init, mkBoard [] [(3, 3)], mkBoard [] [(3, 3)]]⟩ ∧
    [Action.pass, Action.move 3 3, Action.pass].countP isPass = 2 ∧
    GameState.is_ended ⟨mkBoard [] [(3, 3)], Color.white, 2,
      [Board.init, mkBoard [] [(3, 3)], mkBoard [] [(3, 3)]]⟩ = true :=
  ⟨by decide, by decide,
    C9_pass_counter_frame.2 [Action.pass, Action.move 3 3, Action.pass] _
      (by decide) (by decide)⟩

/-- C10: `update` never consults `is_ended`: in a finished state (pass
counter 2) a further Pass is processed normally, yielding pass counter 3 —
a state that again reports the game as not ended. -/
theorem C10_update_ignores_ended (gs : GameState) (h : gs.is_ended = true) :
    gs.update Action.pass =
      Except.ok ⟨gs.board, COLOR_REVERSE gs.turn, 3, gs.past_boards ++ [gs.board]⟩ ∧
    GameState.is_ended
      ⟨gs.board, COLOR_REVERSE gs.turn, 3, gs.past_boards ++ [gs.board]⟩ = false := by
  have hp : gs.num_of_passes = 2 := by
    simpa [GameState.is_ended] using h
  constructor
  · simp only [GameState.update]
    rw [hp]
  · simp [GameState.is_ended]

/-- Witness for C10 in a twice-passed state. -/
theorem C10_witness :
    GameState.is_ended ⟨Board.init, Color.black, 2, []⟩ = true ∧
    ((⟨Board.init, Color.black, 2, []⟩ : GameState).update Action.pass =
        Except.ok ⟨Board.init, Color.white, 3, [Board.init]⟩ ∧
      GameState.is_ended ⟨Board.init, Color.white, 3, [Board.init]⟩ = false) :=
  ⟨by decide, C10_update_ignores_ended ⟨Board.init, Color.black, 2, []⟩ (by decide)⟩

/-! ### A reachable ko cycle (for C1)

Black builds the diamond (0,1),(1,0),(2,1); White builds (0,2),(1,1),(2,2),
(1,3) (Black passing once to give White the extra stone).  Black captures
the white stone at (1,1) by playing (1,2); White's recapture at (1,1)
exactly recreates the position after White's seventh-ply move. -/

def kb1 : Board := mkBoard [(0, 1)] []
def kb2 : Board := mkBoard [(0, 1)] [(0, 2)]
def kb3 : Board := mkBoard [(0, 1), (1, 0)] [(0, 2)]
def kb4 : Board := mkBoard [(0, 1), (1, 0)] [(0, 2), (1, 1)]
def kb5 : Board := mkBoard [(0, 1), (1, 0), (2, 1)] [(0, 2), (1, 1)]
def kb6 : Board := mkBoard [(0, 1), (1, 0), (2, 1)] [(0, 2), (1, 1), (2, 2)]
def kb8 : Board := mkBoard [(0, 1), (1, 0), (2, 1)] [(0, 2), (1, 1), (2, 2), (1, 3)]
def kb9 : Board := mkBoard [(0, 1), (1, 0), (2, 1), (1, 2)] [(0, 2), (2, 2), (1, 3)]

def ks1 : GameState := ⟨kb1, Color.white, 0, [kb1]⟩
def ks2 : GameState := ⟨kb2, Color.black, 0, [kb1, kb2]⟩
def ks3 : GameState := ⟨kb3, Color.white, 0, [kb1, kb2, kb3]⟩
def ks4 : GameState := ⟨kb4, Color.black, 0, [kb1, kb2, kb3, kb4]⟩
def ks5 : GameState := ⟨kb5, Color.white, 0, [kb1, kb2, kb3, kb4, kb5]⟩
def ks6 : GameState := ⟨kb6, Color.black, 0, [kb1, kb2, kb3, kb4, kb5, kb6]⟩
def ks7 : GameState := ⟨kb6, Color.white, 1, [kb1, kb2, kb3, kb4, kb5, kb6, kb6]⟩
def ks8 : GameState :=
  ⟨kb8, Color.black, 1, [kb1, kb2, kb3, kb4, kb5, kb6, kb6, kb8]⟩
def ks9 : GameState :=
  ⟨kb9, Color.white, 1, [kb1, kb2, kb3, kb4, kb5, kb6, kb6, kb8, kb9]⟩
def ks10 : GameState :=
  ⟨kb8, Color.black, 1, [kb1, kb2, kb3, kb4, kb5, kb6, kb6, kb8, kb9, kb8]⟩

def koMoves : List Action :=
  [Action.move 0 1, Action.move 0 2, Action.move 1 0, Action.move 1 1,
   Action.move 2 1, Action.move 2 2, Action.pass, Action.move 1 3,
   Action.move 1 2]

set_option maxHeartbeats 4000000 in
theorem kstep1 : GameState.init.update (Action.move 0 1) = Except.ok ks1 := by decide

set_option maxHeartbeats 4000000 in
theorem kstep2 : ks1.update (Action.move 0 2) = Except.ok ks2 := by decide

set_option maxHeartbeats 4000000 in
theorem kstep3 : ks2.update (Action.move 1 0) = Except.ok ks3 := by decide

set_option maxHeartbeats 4000000 in
theorem kstep4 : ks3.update (Action.move 1 1) = Except.ok ks4 := by decide

set_option maxHeartbeats 4000000 in
theorem kstep5 : ks4.update (Action.move 2 1) = Except.ok ks5 := by decide

set_option maxHeartbeats 4000000 in
theorem kstep6 : ks5.update (Action.move 2 2) = Except.ok ks6 := by decide

set_option maxHeartbeats 4000000 in
theorem kstep7 : ks6.update Action.pass = Except.ok ks7 := by decide

set_option maxHeartbeats 4000000 in
theorem kstep8 : ks7.update (Action.move 1 3) = Except.ok ks8 := by decide

set_option maxHeartbeats 4000000 in
theorem kstep9 : ks8.update (Action.move 1 2) = Except.ok ks9 := by decide

theorem ko_run : applyAll GameState.init koMoves = Except.ok ks9 := by
  simp only [koMoves, applyAll, kstep1, kstep2, kstep3, kstep4, kstep5, kstep6,
    kstep7, kstep8, kstep9]

set_option maxHeartbeats 4000000 in
/-- C1: the game state `ks9` is reachable from the initial state; White's
recapture at (1,1) produces (as `detect_ko`'s own hypothetical simulation
shows) a board cell-wise equal to the snapshot `kb8` already stored in the
position history — yet `detect_ko` reports `false` (its history lookup
compares `Board` objects by Python identity, `Board` having `__hash__` but
no `__eq__`) and the move is committed instead of failing with the ko
error. -/
theorem C1_ko_repetition_not_rejected :
    applyAll GameState.init koMoves = Except.ok ks9 ∧
    ks9.hypotheticalBoard 1 1 = kb8 ∧
    kb8 ∈ ks9.past_boards ∧
    ks9.detect_ko 1 1 = false ∧
    ks9.update (Action.move 1 1) = Except.ok ks10 :=
  ⟨ko_run, by decide, by decide, rfl, by decide⟩

/-! ### A reachable suicide position (for C2)

White surrounds the empty point (1,1) with (0,1),(1,0),(2,1),(1,2) while
Black plays far away on row 5.  Black then plays the surrounded point (1,1):
no white stone is captured and the placed stone's own group has zero
liberties — the spec demands rejection, but `update` has no such check: it
accepts the move and the mover's own capture resolution silently deletes
the new stone. -/

def sb1 : Board := mkBoard [(5, 5)] []
def sb2 : Board := mkBoard [(5, 5)] [(0, 1)]
def sb3 : Board := mkBoard [(5, 5), (5, 7)] [(0, 1)]
def sb4 : Board := mkBoard [(5, 5), (5, 7)] [(0, 1), (1, 0)]
def sb5 : Board := mkBoard [(5, 5), (5, 7), (5, 9)] [(0, 1), (1, 0)]
def sb6 : Board := mkBoard [(5, 5), (5, 7), (5, 9)] [(0, 1), (1, 0), (2, 1)]
def sb7 : Board := mkBoard [(5, 5), (5, 7), (5, 9), (5, 11)] [(0, 1), (1, 0), (2, 1)]
def sb8 : Board :=
  mkBoard [(5, 5), (5, 7), (5, 9), (5, 11)] [(0, 1), (1, 0), (2, 1), (1, 2)]

def ss1 : GameState := ⟨sb1, Color.white, 0, [sb1]⟩
def ss2 : GameState := ⟨sb2, Color.black, 0, [sb1, sb2]⟩
def ss3 : GameState := ⟨sb3, Color.white, 0, [sb1, sb2, sb3]⟩
def ss4 : GameState := ⟨sb4, Color.black, 0, [sb1, sb2, sb3, sb4]⟩
def ss5 : GameState := ⟨sb5, Color.white, 0, [sb1, sb2, sb3, sb4, sb5]⟩
def ss6 : GameState := ⟨sb6, Color.black, 0, [sb1, sb2, sb3, sb4, sb5, sb6]⟩
def ss7 : GameState := ⟨sb7, Color.white, 0, [sb1, sb2, sb3, sb4, sb5, sb6, sb7]⟩
def ss8 : GameState :=
  ⟨sb8, Color.black, 0, [sb1, sb2, sb3, sb4, sb5, sb6, sb7, sb8]⟩
def ss9 : GameState :=
  ⟨sb8, Color.white, 0, [sb1, sb2, sb3, sb4, sb5, sb6, sb7, sb8, sb8]⟩

def c2Moves : List Action :=
  [Action.move 5 5, Action.move 0 1, Action.move 5 7, Action.move 1 0,
   Action.move 5 9, Action.move 2 1, Action.move 5 11, Action.move 1 2]

set_option maxHeartbeats 4000000 in
theorem sstep1 : GameState.init.update (Action.move 5 5) = Except.ok ss1 := by decide

set_option maxHeartbeats 4000000 in
theorem sstep2 : ss1.update (Action.move 0 1) = Except.ok ss2 := by decide

set_option maxHeartbeats 4000000 in
theorem sstep3 : ss2.update (Action.move 5 7) = Except.ok ss3 := by decide

set_option maxHeartbeats 4000000 in
theorem sstep4 : ss3.update (Action.move 1 0) = Except.ok ss4 := by decide

set_option maxHeartbeats 4000000 in
theorem sstep5 : ss4.update (Action.move 5 9) = Except.ok ss5 := by decide

set_option maxHeartbeats 4000000 in
theorem sstep6 : ss5.update (Action.move 2 1) = Except.ok ss6 := by decide

set_option maxHeartbeats 4000000 in
theorem sstep7 : ss6.update (Action.move 5 11) = Except.ok ss7 := by decide

set_option maxHeartbeats 4000000 in
theorem sstep8 : ss7.update (Action.move 1 2) = Except.ok ss8 := by decide

theorem c2_run : applyAll GameState.init c2Moves = Except.ok ss8 := by
  simp only [c2Moves, applyAll, sstep1, sstep2, sstep3, sstep4, sstep5, sstep6,
    sstep7, sstep8]

set_option maxHeartbeats 4000000 in
/-- C2: in the reachable state `ss8` Black plays the point (1,1), every
neighbour of which is a white stone; after opponent-capture resolution no
white stone is captured (the resolved board equals the board with the stone
just placed, minus nothing white) and the placed stone's own group has zero
liberties — yet `update` accepts the move: it returns a successor state
(rather than any error) in which the placed stone has been silently removed
by the mover's own capture resolution, the turn has flipped and history has
grown. -/
theorem C2_suicide_not_rejected :
    applyAll GameState.init c2Moves = Except.ok ss8 ∧
    ss8.turn = Color.black ∧
    ss8.board.cell 1 1 = PositionState.empty ∧
    (∀ rc ∈ (Piece.mk 1 1 Color.black).adjacent_coordinates,
      (fill_new_piece sb8 1 1 Color.black).cell rc.1 rc.2 = PositionState.white) ∧
    removeComponents (fill_new_piece sb8 1 1 Color.black) Color.white
      = fill_new_piece sb8 1 1 Color.black ∧
    ss8.update (Action.move 1 1) = Except.ok ss9 ∧
    ss9.board = ss8.board :=
  ⟨c2_run, rfl, by decide, by decide, by decide, by decide, by decide⟩

/-! ### Capture resolution on a two-stone group (for C4)

White plays (6,5), filling the last liberty of the isolated black stone
(5,5) — that stone's removal is correct.  But the black chain
(0,0)–(0,1) still has the liberty (1,1), and capture resolution removes
(0,0) anyway, because the broken adjacency probe makes the code treat each
stone as its own group and (0,0) individually has no empty neighbour. -/

def c4b : Board :=
  mkBoard [(0, 0), (0, 1), (5, 5)] [(0, 2), (1, 0), (4, 5), (5, 4), (5, 6)]

def c4Post : Board := fill_new_piece c4b 6 5 Color.white

def c4s : GameState := ⟨c4b, Color.white, 0, []⟩

def c4bAfter : Board :=
  mkBoard [(0, 1)] [(0, 2), (1, 0), (4, 5), (5, 4), (5, 6), (6, 5)]

def c4sAfter : GameState := ⟨c4bAfter, Color.black, 0, [c4bAfter]⟩

set_option maxHeartbeats 4000000 in
/-- C4: on the board `c4Post` obtained by White's placement at (6,5), the
black stone (5,5) forms a group with zero liberties (every in-bounds
neighbour is occupied) and capture resolution correctly empties its cell;
but the 4-adjacent black pair (0,0),(0,1) — a group that still has the
liberty (1,1), an empty neighbour of (0,1) — loses its member (0,0):
capture resolution removes a stone belonging to a group with a liberty,
refuting the claim (the full `update` commits this result). -/
theorem C4_capture_removes_stone_of_liberal_group :
    (∀ rc ∈ (Piece.mk 5 5 Color.black).adjacent_coordinates,
      ¬ c4Post.cell rc.1 rc.2 = PositionState.empty) ∧
    (removeComponents c4Post Color.black).cell 5 5 = PositionState.empty ∧
    (c4Post.cell 0 0 = PositionState.black ∧
      c4Post.cell 0 1 = PositionState.black ∧
      specAdjacent ⟨0, 0, Color.black⟩ ⟨0, 1, Color.black⟩ ∧
      (1, 1) ∈ (Piece.mk 0 1 Color.black).adjacent_coordinates ∧
      c4Post.cell 1 1 = PositionState.empty) ∧
    (removeComponents c4Post Color.black).cell 0 0 = PositionState.empty ∧
    c4s.update (Action.move 6 5) = Except.ok c4sAfter :=
  ⟨by decide, by decide, ⟨by decide, by decide, by decide, by decide, by decide⟩,
    by decide, by decide⟩

end GoMattGo
